import Mathlib

/-!
# FXLabsPrimeCRM-Backend — verification of the subscription/commission core

Shallow embedding of the database-level trigger logic of
`supabase/migrations/00005_fix_race_conditions.sql`:

* `update_partner_revenue` (the fixed, atomic-conditional-update version):
  fired `AFTER INSERT ON crm_payment`; atomically marks the user converted
  (`UPDATE … SET converted_at = NOW() WHERE user_id = NEW.user_id AND
  converted_at IS NULL RETURNING crm_partner_id`), and if this call performed
  the transition and the user is referred, credits the referring partner
  (`total_revenue += NEW.amount * commission_percent / 100.0`,
  `total_converted += 1`), raising an exception when the partner row is
  missing (`IF NOT FOUND THEN RAISE EXCEPTION`).
* `crm_set_converted_at`: fired `AFTER INSERT ON crm_payment`; the single
  conditional update setting `converted_at = NEW.paid_at` and
  `subscription_status = 'active'` on the not-yet-converted user row.
* `increment_total_added` (fixed version): fired
  `AFTER INSERT ON crm_user_metadata`; increments the referring partner's
  `total_added`, raising when the partner row is missing.
* `prevent_invalid_status_transition`: `BEFORE UPDATE ON crm_user_metadata`;
  rejects `expired → added` and `active → added`.
* `update_expired_subscriptions`: batch sweep moving rows with
  `subscription_status = 'active' AND subscription_ends_at < NOW()`
  to `'expired'`.

Modelling conventions: timestamps are `Nat`; SQL `numeric` (exact decimal
arithmetic) is `ℚ`; `uuid` keys are `Nat`; tables keyed by a unique column
(`crm_user_metadata.user_id` is UNIQUE, `crm_partner.id` is the primary key)
are partial maps `Nat → Option row`; `RAISE EXCEPTION` is `Except.error`;
a trigger runs inside the transaction of the causing `INSERT`, so the
committed effect of an event whose trigger raised is a rollback to the
pre-event state.
-/

namespace CRM

/-- `subscription_status ∈ {'added','active','expired'}` (CHECK constraint of
`crm_user_metadata` in `00001_initial_schema.sql`). -/
inductive SubStatus
  | added
  | active
  | expired
deriving DecidableEq, Repr

/-- A `crm_user_metadata` row (the columns the trigger logic touches);
the row is addressed by its unique `user_id`, kept as the map key. -/
structure UserMeta where
  crm_partner_id : Option Nat
  converted_at : Option Nat
  subscription_status : SubStatus
  subscription_ends_at : Option Nat
  updated_at : Nat
deriving DecidableEq, Repr

/-- A `crm_partner` row (the columns the trigger logic touches);
addressed by its primary key `id`, kept as the map key. -/
structure Partner where
  commission_percent : Int
  total_revenue : ℚ
  total_added : Int
  total_converted : Int
  updated_at : Nat
deriving DecidableEq, Repr

/-- A `crm_payment` row as seen by the `AFTER INSERT` triggers (`NEW`):
`user_id`, `amount` (NOT NULL `numeric`), `paid_at`. -/
structure Payment where
  user_id : Nat
  amount : ℚ
  paid_at : Nat
deriving DecidableEq, Repr

/-- The database state: `crm_user_metadata` keyed by `user_id`,
`crm_partner` keyed by `id`, and the append-only `crm_payment` table. -/
@[ext]
structure DBState where
  users : Nat → Option UserMeta
  partners : Nat → Option Partner
  payments : List Payment

/-- Pointwise update of a keyed table at one key. -/
def setRow {α : Type} (t : Nat → Option α) (k : Nat) (v : α) : Nat → Option α :=
  fun i => if i = k then some v else t i

/-- `public.update_partner_revenue()` — the fixed version
(`00005_fix_race_conditions.sql`, lines 14–56).  Step 1 is the atomic
conditional update `SET converted_at = NOW() WHERE user_id = NEW.user_id AND
converted_at IS NULL RETURNING crm_partner_id INTO partner_id`; when no row
matched or the user has no referring partner, `partner_id IS NULL` and the
function returns.  Otherwise the partner row is credited with
`commission_amount = COALESCE(NEW.amount,0) * commission_percent / 100.0`
and `total_converted + 1`; `IF NOT FOUND` on that update raises. -/
def update_partner_revenue (now : Nat) (s : DBState) (new : Payment) :
    Except String DBState :=
  match s.users new.user_id with
  | none => .ok s
  | some um =>
    match um.converted_at with
    | some _ => .ok s
    | none =>
      let s1 : DBState :=
        { s with users := setRow s.users new.user_id ({ um with converted_at := some now }) }
      match um.crm_partner_id with
      | none => .ok s1
      | some pid =>
        match s1.partners pid with
        | none => .error "Partner not found during revenue update"
        | some p =>
          let commission_amount : ℚ := new.amount * (p.commission_percent : ℚ) / 100
          let p' : Partner :=
            { p with total_revenue := p.total_revenue + commission_amount,
                     total_converted := p.total_converted + 1,
                     updated_at := now }
          .ok { s1 with partners := setRow s1.partners pid p' }

/-- A payment event: the `INSERT INTO crm_payment` together with its
`AFTER INSERT` trigger `update_partner_revenue`, in one transaction. -/
def insertPaymentTx (now : Nat) (s : DBState) (p : Payment) :
    Except String DBState :=
  update_partner_revenue now { s with payments := s.payments ++ [p] } p

/-- The committed state of a payment event: a raised exception aborts the
transaction, rolling back the payment insert as well. -/
def commitPayment (now : Nat) (s : DBState) (p : Payment) : DBState :=
  match insertPaymentTx now s p with
  | .ok s' => s'
  | .error _ => s

/-- Sequential payment events, each with its own `NOW()` timestamp. -/
def commitPayments (s : DBState) (tps : List (Nat × Payment)) : DBState :=
  tps.foldl (fun st tp => commitPayment tp.1 st tp.2) s

/-- `public.crm_set_converted_at()` (`00005_fix_race_conditions.sql`,
lines 264–278): `UPDATE crm_user_metadata SET converted_at = NEW.paid_at,
subscription_status = 'active', updated_at = NOW() WHERE user_id =
NEW.user_id AND converted_at IS NULL`. -/
def crm_set_converted_at (now : Nat) (s : DBState) (new : Payment) : DBState :=
  { s with users := fun i =>
      match s.users i with
      | none => none
      | some um =>
        if i = new.user_id ∧ um.converted_at = none then
          some { um with converted_at := some new.paid_at,
                         subscription_status := .active,
                         updated_at := now }
        else some um }

/-- `public.increment_total_added()` — the fixed version
(`00005_fix_race_conditions.sql`, lines 61–78): when the inserted
`crm_user_metadata` row has a non-null `crm_partner_id`, increment that
partner's `total_added`; `IF NOT FOUND` raises. -/
def increment_total_added (now : Nat) (s : DBState) (partner_ref : Option Nat) :
    Except String DBState :=
  match partner_ref with
  | none => .ok s
  | some pid =>
    match s.partners pid with
    | none => .error "Partner not found during total_added increment"
    | some p =>
      let p' : Partner := { p with total_added := p.total_added + 1, updated_at := now }
      .ok { s with partners := setRow s.partners pid p' }

/-- An enrollment event: `INSERT INTO crm_user_metadata` together with its
`AFTER INSERT` trigger `increment_total_added`, in one transaction. -/
def insertUserTx (now : Nat) (s : DBState) (uid : Nat) (um : UserMeta) :
    Except String DBState :=
  increment_total_added now { s with users := setRow s.users uid um } um.crm_partner_id

/-- Committed state of an enrollment event (rollback on exception). -/
def commitUserInsert (now : Nat) (s : DBState) (uid : Nat) (um : UserMeta) : DBState :=
  match insertUserTx now s uid um with
  | .ok s' => s'
  | .error _ => s

/-- Sequential enrollment events. -/
def commitUserInserts (s : DBState) (rows : List (Nat × Nat × UserMeta)) : DBState :=
  rows.foldl (fun st r => commitUserInsert r.1 st r.2.1 r.2.2) s

/-- `public.prevent_invalid_status_transition()`
(`00005_fix_race_conditions.sql`, lines 224–240): raises on
`expired → added` and on `active → added`, otherwise returns `NEW`. -/
def prevent_invalid_status_transition (oldS newS : SubStatus) :
    Except String SubStatus :=
  if oldS = .expired ∧ newS = .added then
    .error "Cannot transition from expired to added"
  else if oldS = .active ∧ newS = .added then
    .error "Cannot transition from active to added"
  else .ok newS

/-- An `UPDATE crm_user_metadata SET subscription_status = newS` on one row,
passing through the `BEFORE UPDATE` guard trigger
`prevent_invalid_status_transition` (and `update_updated_at`). -/
def updateSubscriptionStatus (now : Nat) (s : DBState) (uid : Nat)
    (newS : SubStatus) : Except String DBState :=
  match s.users uid with
  | none => .ok s
  | some um =>
    match prevent_invalid_status_transition um.subscription_status newS with
    | .error e => .error e
    | .ok v =>
      let um' : UserMeta := { um with subscription_status := v, updated_at := now }
      .ok { s with users := setRow s.users uid um' }

/-- Committed state of a status-update transaction (rollback on rejection). -/
def commitStatusUpdate (now : Nat) (s : DBState) (uid : Nat)
    (newS : SubStatus) : DBState :=
  match updateSubscriptionStatus now s uid newS with
  | .ok s' => s'
  | .error _ => s

/-- The sweep's row predicate: `subscription_status = 'active' AND
subscription_ends_at < NOW()`. -/
def shouldExpire (now : Nat) (um : UserMeta) : Bool :=
  decide (um.subscription_status = .active) &&
    (match um.subscription_ends_at with
     | some e => decide (e < now)
     | none => false)

/-- `public.update_expired_subscriptions()`
(`00005_fix_race_conditions.sql`, lines 248–256): set-based conditional
update moving every matching row to `'expired'`. -/
def update_expired_subscriptions (now : Nat) (s : DBState) : DBState :=
  { s with users := fun i =>
      match s.users i with
      | none => none
      | some um =>
        if shouldExpire now um then
          some { um with subscription_status := .expired, updated_at := now }
        else some um }

/-- Whether an `Except` result is an error. -/
def isError {ε α : Type} : Except ε α → Bool
  | .error _ => true
  | .ok _ => false


/-! ## Concrete scenario of §8.6 of the spec (claim C3)

Partner 0 with `commission_percent = 10`, `total_revenue = 0`,
`total_converted = 0`; user 0 referred by partner 0, never converted;
two payments of amounts 100 and 50 inserted for user 0. -/

/-- The never-converted user row of the §8.6 scenario. -/
def scenarioUser : UserMeta :=
  { crm_partner_id := some 0, converted_at := none, subscription_status := .added,
    subscription_ends_at := none, updated_at := 0 }

/-- The partner row of the §8.6 scenario (rate 10, totals 0). -/
def scenarioPartner : Partner :=
  { commission_percent := 10, total_revenue := 0, total_added := 0,
    total_converted := 0, updated_at := 0 }

/-- Initial state of the §8.6 scenario. -/
def scenarioState : DBState :=
  { users := fun i => if i = 0 then some scenarioUser else none,
    partners := fun i => if i = 0 then some scenarioPartner else none,
    payments := [] }

/-- The two payment events of the §8.6 scenario: amount 100 at time 1,
then amount 50 at time 2. -/
def scenarioPayments : List (Nat × Payment) :=
  [(1, { user_id := 0, amount := 100, paid_at := 1 }),
   (2, { user_id := 0, amount := 50, paid_at := 2 })]

/-- A state with two never-converted users (ids 0 and 1), both referred by
partner 0. -/
def twoUserState : DBState :=
  { users := fun i => if i = 0 then some scenarioUser
             else if i = 1 then some scenarioUser else none,
    partners := fun i => if i = 0 then some scenarioPartner else none,
    payments := [] }

/-- A state with one active user (id 0) and no partners. -/
def activeUserState : DBState :=
  { users := fun i => if i = 0 then some ({ scenarioUser with subscription_status := .active }) else none,
    partners := fun _ => none,
    payments := [] }

/-- A state with one user (id 0) referred by partner 5, while no partner row
with id 5 exists. -/
def danglingRefState : DBState :=
  { users := fun i => if i = 0 then some ({ scenarioUser with crm_partner_id := some 5 }) else none,
    partners := fun _ => none,
    payments := [] }

/-! ## Helper lemmas -/

theorem setRow_self {α : Type} (t : Nat → Option α) (k : Nat) (v : α) :
    setRow t k v k = some v := by
  simp [setRow]

theorem setRow_ne {α : Type} (t : Nat → Option α) (k : Nat) (v : α) (i : Nat)
    (h : i ≠ k) : setRow t k v i = t i := by
  simp [setRow, h]

/-- A payment event for an already-converted user only appends the payment:
the conditional update matches zero rows. -/
theorem commitPayment_already_converted (now : Nat) (st : DBState) (p : Payment)
    (um : UserMeta) (t : Nat)
    (h : st.users p.user_id = some um) (hc : um.converted_at = some t) :
    commitPayment now st p = { st with payments := st.payments ++ [p] } := by
  simp [commitPayment, insertPaymentTx, update_partner_revenue, h, hc]

/-- After a user is converted, any further payment events for that user leave
`crm_user_metadata` and `crm_partner` untouched. -/
theorem commitPayments_frame_of_converted (tps : List (Nat × Payment)) :
    ∀ (st : DBState) (U : Nat) (um : UserMeta) (t : Nat),
      st.users U = some um → um.converted_at = some t →
      (∀ tp ∈ tps, tp.2.user_id = U) →
      (commitPayments st tps).users = st.users ∧
      (commitPayments st tps).partners = st.partners := by
  induction tps with
  | nil => intro st U um t _ _ _; exact ⟨rfl, rfl⟩
  | cons tp rest ih =>
    intro st U um t h hc hall
    have huid : tp.2.user_id = U := hall tp (by simp)
    have hstep := commitPayment_already_converted tp.1 st tp.2 um t (by rw [huid]; exact h) hc
    have hrest := ih { st with payments := st.payments ++ [tp.2] } U um t h hc
      (fun tp' h' => hall tp' (by simp [h']))
    simp only [commitPayments, List.foldl_cons, hstep]
    exact hrest

/-- The winning payment event: the user is not yet converted and the referring
partner row exists, so the event converts the user and credits the partner. -/
theorem commitPayment_wins (now : Nat) (st : DBState) (p : Payment)
    (um : UserMeta) (pid : Nat) (pr : Partner)
    (h : st.users p.user_id = some um) (hc : um.converted_at = none)
    (href : um.crm_partner_id = some pid) (hP : st.partners pid = some pr) :
    commitPayment now st p =
      DBState.mk (setRow st.users p.user_id ({ um with converted_at := some now }))
        (setRow st.partners pid
          ({ pr with
              total_revenue := pr.total_revenue + p.amount * (pr.commission_percent : ℚ) / 100,
              total_converted := pr.total_converted + 1,
              updated_at := now }))
        (st.payments ++ [p]) := by
  simp [commitPayment, insertPaymentTx, update_partner_revenue, h, hc, href, hP]

/-! ## Claim theorems -/

/-- C1: At-most-once conversion.  For a user `U` referred by partner `P`
(`crm_partner_id = some P`, partner row present) who has never converted,
after any nonempty sequence of sequential payment events for `U`, the user's
`converted_at` is non-null — it was set by exactly the first insertion (the
row equals the original with only `converted_at := some t₁`) — and the
partner's `total_converted` has increased by exactly 1. -/
theorem at_most_once_conversion (s : DBState) (U P t1 : Nat) (p1 : Payment)
    (rest : List (Nat × Payment)) (um : UserMeta) (pr : Partner)
    (hU : s.users U = some um) (hconv : um.converted_at = none)
    (href : um.crm_partner_id = some P) (hP : s.partners P = some pr)
    (hall : ∀ tp ∈ (t1, p1) :: rest, tp.2.user_id = U) :
    (commitPayments s ((t1, p1) :: rest)).users U =
      some ({ um with converted_at := some t1 }) ∧
    ∃ pr', (commitPayments s ((t1, p1) :: rest)).partners P = some pr' ∧
      pr'.total_converted = pr.total_converted + 1 := by
  have huid : p1.user_id = U := hall (t1, p1) (by simp)
  have hstep := commitPayment_wins t1 s p1 um P pr (by rw [huid]; exact hU) hconv href hP
  set pr' : Partner :=
    { pr with
        total_revenue := pr.total_revenue + p1.amount * (pr.commission_percent : ℚ) / 100,
        total_converted := pr.total_converted + 1,
        updated_at := t1 } with hpr'
  set s1 : DBState :=
    DBState.mk (setRow s.users p1.user_id ({ um with converted_at := some t1 }))
      (setRow s.partners P pr') (s.payments ++ [p1]) with hs1
  have hs1users : s1.users U = some ({ um with converted_at := some t1 }) := by
    rw [hs1]; simp [huid, setRow]
  have hframe := commitPayments_frame_of_converted rest s1 U
    ({ um with converted_at := some t1 }) t1 hs1users rfl
    (fun tp' h' => hall tp' (by simp [h']))
  have hfold : commitPayments s ((t1, p1) :: rest) = commitPayments s1 rest := by
    simp only [commitPayments, List.foldl_cons]
    rw [hstep]
  rw [hfold]
  refine ⟨by rw [hframe.1]; exact hs1users, pr', ?_, rfl⟩
  rw [hframe.2, hs1]
  simp [setRow]

/-- Witness for C1 at the concrete §8.6 state: two payments for user 0. -/
theorem at_most_once_conversion_witness :
    (commitPayments scenarioState
        ((1, Payment.mk 0 100 1) :: [(2, Payment.mk 0 50 2)])).users 0 =
      some ({ scenarioUser with converted_at := some 1 }) ∧
    ∃ pr', (commitPayments scenarioState
        ((1, Payment.mk 0 100 1) :: [(2, Payment.mk 0 50 2)])).partners 0 = some pr' ∧
      pr'.total_converted = scenarioPartner.total_converted + 1 :=
  at_most_once_conversion scenarioState 0 0 1 (Payment.mk 0 100 1)
    [(2, Payment.mk 0 50 2)] scenarioUser scenarioPartner rfl rfl rfl rfl
    (by intro tp htp; fin_cases htp <;> rfl)

/-- C3 counterexample: in the §8.6 scenario the code leaves
`total_revenue = 10.00` (10% of the winning first payment of 100), not the
claimed `15.00`. -/
theorem two_payment_scenario_not_fifteen :
    ((commitPayments scenarioState scenarioPayments).partners 0).map
      Partner.total_revenue ≠ some 15 := by
  simp [commitPayments, commitPayment, insertPaymentTx, update_partner_revenue, setRow,
        scenarioState, scenarioUser, scenarioPartner, scenarioPayments]

/-- C3 (amended): in the §8.6 scenario, user 0's `converted_at` is set exactly
once (by the first insertion, to its timestamp), `P.total_revenue = 10.00`
(10% of the winning payment of 100), and `P.total_converted = 1`. -/
theorem two_payment_scenario_final_state :
    (commitPayments scenarioState scenarioPayments).users 0 =
      some ({ scenarioUser with converted_at := some 1 }) ∧
    (commitPayments scenarioState scenarioPayments).partners 0 =
      some (Partner.mk 10 10 0 1 1) := by
  constructor <;>
    simp [commitPayments, commitPayment, insertPaymentTx, update_partner_revenue,
      setRow, scenarioState, scenarioUser, scenarioPartner, scenarioPayments]

/-- C4: Winning-conversion postcondition.  For a payment whose user row has
`converted_at IS NULL`, the single conditional update `crm_set_converted_at`
transitions the row to `converted_at = NEW.paid_at` and
`subscription_status = 'active'`. -/
theorem winning_conversion_transition (now : Nat) (s : DBState) (p : Payment)
    (um : UserMeta) (h : s.users p.user_id = some um)
    (hc : um.converted_at = none) :
    (crm_set_converted_at now s p).users p.user_id =
      some ({ um with converted_at := some p.paid_at,
                      subscription_status := .active, updated_at := now }) := by
  simp [crm_set_converted_at, h, hc]

/-- Witness for C4 at a concrete state and payment. -/
theorem winning_conversion_transition_witness :
    (crm_set_converted_at 7 scenarioState (Payment.mk 0 100 5)).users 0 =
      some ({ scenarioUser with converted_at := some 5,
                                subscription_status := .active, updated_at := 7 }) :=
  winning_conversion_transition 7 scenarioState (Payment.mk 0 100 5) scenarioUser rfl rfl

/-- Folding first-conversion payment events of pairwise-distinct referred
users over the state: the partner row accumulates each commission
`amount × rate / 100` and one conversion per payment. -/
theorem commitPayments_first_conversions (tps : List (Nat × Payment)) :
    ∀ (s : DBState) (P : Nat) (pr : Partner),
      s.partners P = some pr →
      (tps.map (fun tp => tp.2.user_id)).Nodup →
      (∀ tp ∈ tps, ∃ um, s.users tp.2.user_id = some um ∧
        um.converted_at = none ∧ um.crm_partner_id = some P) →
      ∃ pr', (commitPayments s tps).partners P = some pr' ∧
        pr'.commission_percent = pr.commission_percent ∧
        pr'.total_revenue = pr.total_revenue +
          (tps.map (fun tp => tp.2.amount * (pr.commission_percent : ℚ) / 100)).sum ∧
        pr'.total_converted = pr.total_converted + tps.length := by
  induction tps with
  | nil =>
    intro s P pr hP _ _
    exact ⟨pr, hP, rfl, by simp, by simp⟩
  | cons tp rest ih =>
    intro s P pr hP hnodup husers
    obtain ⟨um, hum, hconv, href⟩ := husers tp (by simp)
    have hstep := commitPayment_wins tp.1 s tp.2 um P pr hum hconv href hP
    set pr1 : Partner :=
      { pr with
          total_revenue := pr.total_revenue + tp.2.amount * (pr.commission_percent : ℚ) / 100,
          total_converted := pr.total_converted + 1,
          updated_at := tp.1 } with hpr1
    set s1 : DBState :=
      DBState.mk (setRow s.users tp.2.user_id ({ um with converted_at := some tp.1 }))
        (setRow s.partners P pr1) (s.payments ++ [tp.2]) with hs1
    have hs1P : s1.partners P = some pr1 := by rw [hs1]; exact setRow_self _ _ _
    have hnotin : tp.2.user_id ∉ rest.map (fun tp' => tp'.2.user_id) := by
      simp only [List.map_cons, List.nodup_cons] at hnodup
      exact hnodup.1
    have husers1 : ∀ tp' ∈ rest, ∃ um', s1.users tp'.2.user_id = some um' ∧
        um'.converted_at = none ∧ um'.crm_partner_id = some P := by
      intro tp' h'
      obtain ⟨um', hum', hc', hr'⟩ := husers tp' (by simp [h'])
      have hne : tp'.2.user_id ≠ tp.2.user_id := by
        intro heq
        exact hnotin (heq ▸ List.mem_map_of_mem (fun tp'' => tp''.2.user_id) h')
      refine ⟨um', ?_, hc', hr'⟩
      rw [hs1]
      simpa [setRow_ne _ _ _ _ hne] using hum'
    obtain ⟨pr', hfinal, hcp, hrev, hconv'⟩ := ih s1 P pr1 hs1P
      (by simp only [List.map_cons, List.nodup_cons] at hnodup; exact hnodup.2) husers1
    have hfold : commitPayments s (tp :: rest) = commitPayments s1 rest := by
      simp only [commitPayments, List.foldl_cons]
      rw [hstep]
    refine ⟨pr', by rw [hfold]; exact hfinal, by rw [hcp, hpr1], ?_, ?_⟩
    · rw [hrev, hpr1]
      simp only [List.map_cons, List.sum_cons]
      ring
    · rw [hconv', hpr1]
      simp only [List.length_cons]
      push_cast
      ring

/-- C2: Commission additivity.  For a partner `P` with flat rate
`pr.commission_percent` and first-conversion payments of distinct referred
users, applying the crediting updates in any order (`tps'` is any permutation
of `tps`) increases `total_revenue` by exactly `Σᵢ (aᵢ × r / 100)`, computed
in exact decimal (`ℚ`) arithmetic. -/
theorem commission_additivity (s : DBState) (P : Nat) (pr : Partner)
    (tps tps' : List (Nat × Payment))
    (hP : s.partners P = some pr)
    (hperm : tps'.Perm tps)
    (hnodup : (tps.map (fun tp => tp.2.user_id)).Nodup)
    (husers : ∀ tp ∈ tps, ∃ um, s.users tp.2.user_id = some um ∧
      um.converted_at = none ∧ um.crm_partner_id = some P) :
    ∃ pr', (commitPayments s tps').partners P = some pr' ∧
      pr'.total_revenue = pr.total_revenue +
        (tps.map (fun tp => tp.2.amount * (pr.commission_percent : ℚ) / 100)).sum := by
  have hnodup' : (tps'.map (fun tp => tp.2.user_id)).Nodup :=
    (hperm.map (fun tp => tp.2.user_id)).nodup_iff.mpr hnodup
  have husers' : ∀ tp ∈ tps', ∃ um, s.users tp.2.user_id = some um ∧
      um.converted_at = none ∧ um.crm_partner_id = some P :=
    fun tp h => husers tp (hperm.mem_iff.mp h)
  obtain ⟨pr', h1, _, h3, _⟩ :=
    commitPayments_first_conversions tps' s P pr hP hnodup' husers'
  refine ⟨pr', h1, ?_⟩
  rw [h3]
  congr 1
  exact (hperm.map (fun tp => tp.2.amount * (pr.commission_percent : ℚ) / 100)).sum_eq

/-- Witness for C2: users 0 and 1 convert with payments 100 and 50 under rate
10, applied in swapped order; the revenue increase is 10 + 5. -/
theorem commission_additivity_witness :
    ∃ pr', (commitPayments twoUserState
        [(2, Payment.mk 1 50 2), (1, Payment.mk 0 100 1)]).partners 0 = some pr' ∧
      pr'.total_revenue = scenarioPartner.total_revenue +
        ([(1, Payment.mk 0 100 1), (2, Payment.mk 1 50 2)].map
          (fun tp => tp.2.amount * (scenarioPartner.commission_percent : ℚ) / 100)).sum :=
  commission_additivity twoUserState 0 scenarioPartner
    [(1, Payment.mk 0 100 1), (2, Payment.mk 1 50 2)]
    [(2, Payment.mk 1 50 2), (1, Payment.mk 0 100 1)]
    rfl (List.Perm.swap (1, Payment.mk 0 100 1) (2, Payment.mk 1 50 2) [])
    (by simp)
    (by intro tp htp; fin_cases htp
        · exact ⟨scenarioUser, rfl, rfl, rfl⟩
        · exact ⟨scenarioUser, rfl, rfl, rfl⟩)

/-- C5: Status Guard no-regression.  Updating `subscription_status` from
`'active'` or `'expired'` to `'added'` raises an explicit error and the
transaction leaves the row unchanged, while `added→active`, `active→expired`
and `added→expired` succeed. -/
theorem status_guard_no_regression (now : Nat) (s : DBState) (uid : Nat)
    (um : UserMeta) (h : s.users uid = some um) :
    ((um.subscription_status = .active ∨ um.subscription_status = .expired) →
      isError (updateSubscriptionStatus now s uid .added) = true ∧
      commitStatusUpdate now s uid .added = s) ∧
    (um.subscription_status = .added →
      ∃ s', updateSubscriptionStatus now s uid .active = .ok s' ∧
        s'.users uid = some ({ um with subscription_status := .active, updated_at := now }) ∧
        (∀ j, j ≠ uid → s'.users j = s.users j) ∧ s'.partners = s.partners) ∧
    ((um.subscription_status = .added ∨ um.subscription_status = .active) →
      ∃ s', updateSubscriptionStatus now s uid .expired = .ok s' ∧
        s'.users uid = some ({ um with subscription_status := .expired, updated_at := now }) ∧
        (∀ j, j ≠ uid → s'.users j = s.users j) ∧ s'.partners = s.partners) := by
  refine ⟨?_, ?_, ?_⟩
  · rintro (hs | hs) <;>
      simp [updateSubscriptionStatus, commitStatusUpdate,
        prevent_invalid_status_transition, isError, h, hs]
  · intro hs
    refine ⟨{ s with users := setRow s.users uid ({ um with subscription_status := .active, updated_at := now }) }, ?_, setRow_self _ _ _, fun j hj => setRow_ne _ _ _ _ hj, rfl⟩
    simp [updateSubscriptionStatus, prevent_invalid_status_transition, h, hs]
  · rintro (hs | hs) <;>
    · refine ⟨{ s with users := setRow s.users uid ({ um with subscription_status := .expired, updated_at := now }) }, ?_, setRow_self _ _ _, fun j hj => setRow_ne _ _ _ _ hj, rfl⟩
      simp [updateSubscriptionStatus, prevent_invalid_status_transition, h, hs]

/-- Witness for C5: an active user, update to `'added'` is rejected and the
committed state is unchanged. -/
theorem status_guard_no_regression_witness :
    isError (updateSubscriptionStatus 3 activeUserState 0 .added) = true ∧
    commitStatusUpdate 3 activeUserState 0 .added = activeUserState :=
  (status_guard_no_regression 3 activeUserState 0
    ({ scenarioUser with subscription_status := .active }) rfl).1 (Or.inl rfl)

/-- C6: Atomic failure of the payment event.  When an unconverted user's
referring partner row is missing at update time, the trigger raises
(no silent drop) and the committed state of the whole payment event is the
pre-event state: no payment row, no conversion, no aggregate change. -/
theorem missing_partner_fails_atomically (now : Nat) (s : DBState) (p : Payment)
    (um : UserMeta) (pid : Nat)
    (h : s.users p.user_id = some um) (hc : um.converted_at = none)
    (href : um.crm_partner_id = some pid) (hmiss : s.partners pid = none) :
    isError (insertPaymentTx now s p) = true ∧ commitPayment now s p = s := by
  constructor <;>
    simp [insertPaymentTx, commitPayment, update_partner_revenue, isError,
      h, hc, href, hmiss]

/-- Witness for C6: a user referred by the nonexistent partner 5. -/
theorem missing_partner_fails_atomically_witness :
    isError (insertPaymentTx 1 danglingRefState (Payment.mk 0 100 1)) = true ∧
    commitPayment 1 danglingRefState (Payment.mk 0 100 1) = danglingRefState :=
  missing_partner_fails_atomically 1 danglingRefState (Payment.mk 0 100 1)
    ({ scenarioUser with crm_partner_id := some 5 }) 5 rfl rfl rfl rfl

/-- C9: the Status Guard raises an error precisely on `expired→added` and
`active→added`; in particular the re-activation `expired→active` is
accepted. -/
theorem status_guard_error_characterization :
    (∀ oldS newS : SubStatus,
      isError (prevent_invalid_status_transition oldS newS) = true ↔
        ((oldS = .expired ∧ newS = .added) ∨ (oldS = .active ∧ newS = .added))) ∧
    prevent_invalid_status_transition .expired .active = .ok .active := by
  constructor
  · intro oldS newS
    cases oldS <;> cases newS <;>
      simp [prevent_invalid_status_transition, isError]
  · rfl

/-- C10: a payment insertion for a `user_id` with no `crm_user_metadata` row
succeeds (the conditional update matches zero rows and the trigger returns),
recording the payment and changing nothing else. -/
theorem payment_without_user_row_records_only (now : Nat) (s : DBState)
    (p : Payment) (h : s.users p.user_id = none) :
    ∃ s', insertPaymentTx now s p = .ok s' ∧ s'.users = s.users ∧
      s'.partners = s.partners ∧ s'.payments = s.payments ++ [p] := by
  refine ⟨{ s with payments := s.payments ++ [p] }, ?_, rfl, rfl, rfl⟩
  simp [insertPaymentTx, update_partner_revenue, h]

/-- Witness for C10: a payment for the unknown user 7. -/
theorem payment_without_user_row_records_only_witness :
    ∃ s', insertPaymentTx 1 danglingRefState (Payment.mk 7 100 1) = .ok s' ∧
      s'.users = danglingRefState.users ∧
      s'.partners = danglingRefState.partners ∧
      s'.payments = danglingRefState.payments ++ [Payment.mk 7 100 1] :=
  payment_without_user_row_records_only 1 danglingRefState (Payment.mk 7 100 1) rfl

/-- An enrollment event whose row references partner `pid` (present):
the partner's `total_added` is incremented. -/
theorem commitUserInsert_refP (now : Nat) (s : DBState) (uid : Nat)
    (um : UserMeta) (pid : Nat) (pr : Partner)
    (href : um.crm_partner_id = some pid) (hP : s.partners pid = some pr) :
    commitUserInsert now s uid um =
      DBState.mk (setRow s.users uid um)
        (setRow s.partners pid ({ pr with total_added := pr.total_added + 1, updated_at := now }))
        s.payments := by
  simp [commitUserInsert, insertUserTx, increment_total_added, href, hP]

/-- An enrollment event whose row references no partner: the trigger takes
no further action. -/
theorem commitUserInsert_refNone (now : Nat) (s : DBState) (uid : Nat)
    (um : UserMeta) (href : um.crm_partner_id = none) :
    commitUserInsert now s uid um =
      DBState.mk (setRow s.users uid um) s.partners s.payments := by
  simp [commitUserInsert, insertUserTx, increment_total_added, href]

/-- Folding enrollment events that reference partner `P` or no partner:
`P.total_added` grows by the number of referencing rows; every other
partner row is untouched. -/
theorem commitUserInserts_aggregates (rows : List (Nat × Nat × UserMeta)) :
    ∀ (s : DBState) (P : Nat) (pr : Partner),
      s.partners P = some pr →
      (∀ r ∈ rows, r.2.2.crm_partner_id = some P ∨ r.2.2.crm_partner_id = none) →
      (∃ pr', (commitUserInserts s rows).partners P = some pr' ∧
        pr'.total_added = pr.total_added +
          ((rows.countP (fun r => decide (r.2.2.crm_partner_id = some P))) : Int) ∧
        pr'.total_revenue = pr.total_revenue ∧
        pr'.total_converted = pr.total_converted) ∧
      (∀ Q, Q ≠ P → (commitUserInserts s rows).partners Q = s.partners Q) := by
  induction rows with
  | nil =>
    intro s P pr hP _
    exact ⟨⟨pr, hP, by simp, rfl, rfl⟩, fun Q _ => rfl⟩
  | cons r rest ih =>
    intro s P pr hP hrefs
    rcases hrefs r (by simp) with href | href
    · have hstep := commitUserInsert_refP r.1 s r.2.1 r.2.2 P pr href hP
      set pr1 : Partner :=
        { pr with total_added := pr.total_added + 1, updated_at := r.1 } with hpr1
      set s1 : DBState :=
        DBState.mk (setRow s.users r.2.1 r.2.2) (setRow s.partners P pr1) s.payments with hs1
      have hfold : commitUserInserts s (r :: rest) = commitUserInserts s1 rest := by
        simp only [commitUserInserts, List.foldl_cons]
        rw [hstep]
      have hs1P : s1.partners P = some pr1 := by rw [hs1]; exact setRow_self _ _ _
      obtain ⟨⟨pr', h1, h2, h3, h4⟩, hframe⟩ := ih s1 P pr1 hs1P
        (fun r' h' => hrefs r' (by simp [h']))
      refine ⟨⟨pr', by rw [hfold]; exact h1, ?_, by rw [h3, hpr1], by rw [h4, hpr1]⟩, ?_⟩
      · rw [h2, hpr1]
        have hr : (decide (r.2.2.crm_partner_id = some P)) = true := by simp [href]
        simp only [List.countP_cons, hr, if_true]
        push_cast
        ring
      · intro Q hQ
        rw [hfold, hframe Q hQ, hs1]
        exact setRow_ne _ _ _ _ hQ
    · have hstep := commitUserInsert_refNone r.1 s r.2.1 r.2.2 href
      set s1 : DBState :=
        DBState.mk (setRow s.users r.2.1 r.2.2) s.partners s.payments with hs1
      have hfold : commitUserInserts s (r :: rest) = commitUserInserts s1 rest := by
        simp only [commitUserInserts, List.foldl_cons]
        rw [hstep]
      have hs1P : s1.partners P = some pr := hP
      obtain ⟨⟨pr', h1, h2, h3, h4⟩, hframe⟩ := ih s1 P pr hs1P
        (fun r' h' => hrefs r' (by simp [h']))
      refine ⟨⟨pr', by rw [hfold]; exact h1, ?_, h3, h4⟩, ?_⟩
      · rw [h2]
        have hr : (decide (r.2.2.crm_partner_id = some P)) = false := by simp [href]
        simp [List.countP_cons, hr]
      · intro Q hQ
        rw [hfold, hframe Q hQ]

/-- C7: Enrollment counting with frame.  Inserting rows referencing partner
`P` interleaved with rows referencing no partner (all fresh, distinct user
ids, per the UNIQUE constraint) increases `P.total_added` by exactly the
number of rows referencing `P` and leaves every other partner row unchanged;
inserting a row whose `crm_partner_id` resolves to no partner raises. -/
theorem enrollment_counting (s : DBState) (P : Nat) (pr : Partner)
    (rows : List (Nat × Nat × UserMeta))
    (hP : s.partners P = some pr)
    (hrefs : ∀ r ∈ rows, r.2.2.crm_partner_id = some P ∨ r.2.2.crm_partner_id = none)
    (hnodupU : (rows.map (fun r => r.2.1)).Nodup)
    (hfresh : ∀ r ∈ rows, s.users r.2.1 = none) :
    (∃ pr', (commitUserInserts s rows).partners P = some pr' ∧
      pr'.total_added = pr.total_added +
        ((rows.countP (fun r => decide (r.2.2.crm_partner_id = some P))) : Int) ∧
      pr'.total_revenue = pr.total_revenue ∧
      pr'.total_converted = pr.total_converted) ∧
    (∀ Q, Q ≠ P → (commitUserInserts s rows).partners Q = s.partners Q) ∧
    (∀ (now' uid' : Nat) (um' : UserMeta) (Q : Nat), um'.crm_partner_id = some Q →
      s.partners Q = none → isError (insertUserTx now' s uid' um') = true) := by
  obtain ⟨hmain, hframe⟩ := commitUserInserts_aggregates rows s P pr hP hrefs
  refine ⟨hmain, hframe, ?_⟩
  intro now' uid' um' Q hQref hQmiss
  simp [insertUserTx, increment_total_added, isError, hQref, hQmiss]

/-- Witness for C7: two enrollments — user 10 referenced to partner 0 and
user 11 with no partner — on the §8.6 base state, plus the referential error
for a row referencing the nonexistent partner 9. -/
theorem enrollment_counting_witness :
    (∃ pr', (commitUserInserts scenarioState
        [(1, (10, scenarioUser)), (2, (11, { scenarioUser with crm_partner_id := none }))]).partners 0 = some pr' ∧
      pr'.total_added = scenarioPartner.total_added +
        (([(1, (10, scenarioUser)), (2, (11, { scenarioUser with crm_partner_id := none }))].countP
          (fun r => decide (r.2.2.crm_partner_id = some 0))) : Int) ∧
      pr'.total_revenue = scenarioPartner.total_revenue ∧
      pr'.total_converted = scenarioPartner.total_converted) ∧
    (∀ Q, Q ≠ 0 → (commitUserInserts scenarioState
        [(1, (10, scenarioUser)), (2, (11, { scenarioUser with crm_partner_id := none }))]).partners Q = scenarioState.partners Q) ∧
    (∀ (now' uid' : Nat) (um' : UserMeta) (Q : Nat), um'.crm_partner_id = some Q →
      scenarioState.partners Q = none →
      isError (insertUserTx now' scenarioState uid' um') = true) :=
  enrollment_counting scenarioState 0 scenarioPartner
    [(1, (10, scenarioUser)), (2, (11, { scenarioUser with crm_partner_id := none }))]
    rfl
    (by intro r hr; fin_cases hr
        · exact Or.inl rfl
        · exact Or.inr rfl)
    (by simp)
    (by intro r hr; fin_cases hr <;> rfl)

/-- C8: Expiry Sweeper idempotence.  Running `update_expired_subscriptions`
twice at the same clock produces exactly the state of running it once; the
sweep sets `subscription_status := 'expired'` precisely on the rows with
`subscription_status = 'active'` and `subscription_ends_at < now`, leaves all
other rows as they are, and touches no partner row or payment. -/
theorem shouldExpire_of_expired_row (now : Nat) (um : UserMeta) :
    shouldExpire now ({ um with subscription_status := .expired, updated_at := now }) = false := by
  simp [shouldExpire]

theorem sweeper_idempotent (now : Nat) (s : DBState) :
    update_expired_subscriptions now (update_expired_subscriptions now s) =
      update_expired_subscriptions now s ∧
    (∀ uid, (update_expired_subscriptions now s).users uid =
      (s.users uid).map (fun um => if shouldExpire now um then { um with subscription_status := .expired, updated_at := now } else um)) ∧
    (update_expired_subscriptions now s).partners = s.partners ∧
    (update_expired_subscriptions now s).payments = s.payments := by
  refine ⟨?_, ?_, rfl, rfl⟩
  · ext i : 2
    · show (update_expired_subscriptions now (update_expired_subscriptions now s)).users i =
        (update_expired_subscriptions now s).users i
      simp only [update_expired_subscriptions]
      cases h : s.users i with
      | none => simp
      | some um =>
        by_cases hc : shouldExpire now um
        · simp [hc, shouldExpire_of_expired_row]
        · simp [hc]
    · rfl
    · rfl
  · intro uid
    cases h : s.users uid with
    | none => simp [update_expired_subscriptions, h]
    | some um =>
      by_cases hc : shouldExpire now um <;> simp [update_expired_subscriptions, h, hc]

end CRM
